import Mathlib

/-!
Verification development for the Image-Tagger batch pipeline.

The repository contains two pipeline variants with overlapping functionality:
`src/src/image_processor.py` (class `ImageProcessor`, the rename/metadata
pipeline) and `src/vision_gemini_tagger.py` (class `EnhancedImageTagger`).
Both are embedded below, each in its own namespace.

Modelling conventions:
* Python strings are Lean `String`s; the Python string operations used by the
  source (`strip`, `lower`, `replace`, slicing, `endswith`, `os.path` helpers)
  are re-implemented on `List Char` so that they are kernel-computable.
  `str.isalnum`/`str.lower` are modelled at ASCII precision.
* Python JSON values are the inductive `Json`; a Python `dict` is an
  association list `List (String × Json)` in insertion order.
* `json.loads` is an external library call; it is passed in as a parameter
  `loads : String → Option Json` (`none` models a `json.JSONDecodeError`).
* Remote services, PIL, and filesystem writes are external collaborators;
  each call site takes its outcome as an `Except String`/`Bool` parameter
  (`Except.error e` models the call raising an exception with message `e`).
* A Python function that may raise is embedded as `Except String α`;
  a function that catches all exceptions internally is embedded as a total
  function.
-/

/-- JSON values as produced by `json.loads`: the top level of a parsed
response may be an object, but also an array, string, number, boolean or
null. Objects are association lists in insertion order. -/
inductive Json where
  | null
  | bool (b : Bool)
  | num (n : Int)
  | str (s : String)
  | arr (elems : List Json)
  | obj (fields : List (String × Json))

/-- First-match lookup in a Python dict (keys of parsed objects are unique). -/
def lookupKey (kvs : List (String × Json)) (k : String) : Option Json :=
  (kvs.find? (fun p => p.1 == k)).map (fun p => p.2)

/-- Python `k in d` for a dict. -/
def hasKey (kvs : List (String × Json)) (k : String) : Bool :=
  (lookupKey kvs k).isSome

/-- Python `d[k] = v` on a dict: update the existing entry in place, or
append a new entry at the end (insertion order). -/
def setKey : List (String × Json) → String → Json → List (String × Json)
  | [], k, v => [(k, v)]
  | (k1, v1) :: rest, k, v =>
    if k1 == k then (k, v) :: rest else (k1, v1) :: setKey rest k v

/-- Python membership test `k in x` for an arbitrary value `x`: key lookup on
a dict, element equality on a list, substring test on a string, and a
`TypeError` on non-iterable values (numbers, booleans, `None`). -/
def pyContains (k : String) : Json → Except String Bool
  | .obj kvs => .ok (hasKey kvs k)
  | .arr xs => .ok (xs.any (fun j => match j with | .str s => s == k | _ => false))
  | .str s => .ok (decide (k.toList <:+: s.toList))
  | _ => .error "TypeError"

/-- Python item assignment `x[k] = v` with a string key: succeeds on a dict,
raises `TypeError` on every other value. -/
def pySetItem : Json → String → Json → Except String Json
  | .obj kvs, k, v => .ok (.obj (setKey kvs k v))
  | _, _, _ => .error "TypeError"

/-- Python `x.get(k, d)`: dict lookup with default; any non-dict value has no
`.get` attribute, which raises `AttributeError`. -/
def pyGetD (j : Json) (k : String) (d : Json) : Except String Json :=
  match j with
  | .obj kvs => .ok ((lookupKey kvs k).getD d)
  | _ => .error "AttributeError"

/-- The opening brace character, `Char.ofNat 123`. -/
def lbrace : Char := Char.ofNat 123

/-- The closing brace character, `Char.ofNat 125`. -/
def rbrace : Char := Char.ofNat 125

/-- Truncate a character list just after its last closing brace. -/
def truncAfterLastRbrace (cs : List Char) : List Char :=
  ((cs.reverse).dropWhile (fun c => c ≠ rbrace)).reverse

/-- `re.search` with pattern group `(` brace `.*` brace `)` and `re.DOTALL` in
`ImageProcessor._parse_gemini_response`: on success the captured group runs
from the first opening brace (provided some closing brace follows it) to the
last closing brace of the text; `none` models a failed search, where the
subsequent `.group(1)` raises `AttributeError`. -/
def braceSpanL (cs : List Char) : Option (List Char) :=
  match cs.dropWhile (fun c => c ≠ lbrace) with
  | [] => none
  | c :: rest => if rbrace ∈ rest then some (truncAfterLastRbrace (c :: rest)) else none

namespace ImageProcessor

/-- `ImageProcessor._parse_gemini_response` (src/src/image_processor.py,
lines 110-118): extract the brace-delimited span, `json.loads` it and return
the parsed value unchanged; the bare `except Exception` returns the empty
dict on a failed search or a parse error, so the function never raises and
never fills missing keys. -/
def parse_gemini_response (loads : String → Option Json) (text : String) : Json :=
  match braceSpanL text.toList with
  | none => .obj []
  | some cs =>
    match loads (String.mk cs) with
    | none => .obj []
    | some v => v

end ImageProcessor

/-- The five required keys of a `GenerativeRecord`, in the order the source
lists them. -/
def requiredFields : List String :=
  ["title", "description", "main_genre", "secondary_genre", "keywords"]

/-- The repair placeholder used by `EnhancedImageTagger`. -/
def placeholder : Json := .str "Non spécifié"

/-- The full default record returned by `EnhancedImageTagger` on a JSON
decode error: every field is the placeholder and `keywords` is `[]`. -/
def defaultRecord : List (String × Json) :=
  [("title", placeholder), ("description", placeholder),
   ("main_genre", placeholder), ("secondary_genre", placeholder),
   ("keywords", .arr [])]

/-- The `re.sub` in `EnhancedImageTagger._parse_gemini_response` (pattern:
lazy any-prefix, greedy brace group, lazy any-suffix, `re.DOTALL`): the one
leftmost match spans from position 0 through the last closing brace and is
replaced by the text from the first opening brace, so the net effect is to
drop everything before the first opening brace when some closing brace
follows it, and to leave the text unchanged otherwise (including everything
after the last closing brace, which the lazy suffix never consumes). -/
def vtSubstituteL (cs : List Char) : List Char :=
  match cs.dropWhile (fun c => c ≠ lbrace) with
  | [] => cs
  | c :: rest => if rbrace ∈ rest then c :: rest else cs

/-- Recursion core of Python `s.replace(pat, rep)`: replace each leftmost
non-overlapping occurrence, scanning left to right. The extra `Nat` is
structural-recursion fuel; every step consumes at least one character, so
fuel equal to the list length (as supplied by `pyReplaceL`) is exact. -/
def pyReplaceAux (pat rep : List Char) : Nat → List Char → List Char
  | 0, cs => cs
  | _ + 1, [] => []
  | n + 1, c :: cs =>
    if pat.isPrefixOf (c :: cs) ∧ pat ≠ [] then
      rep ++ pyReplaceAux pat rep n ((c :: cs).drop pat.length)
    else
      c :: pyReplaceAux pat rep n cs

/-- Python `s.replace(pat, rep)` with a non-empty pattern. -/
def pyReplaceL (pat rep cs : List Char) : List Char :=
  pyReplaceAux pat rep cs.length cs

/-- Python `s.strip()`: drop whitespace from both ends (ASCII whitespace). -/
def pyStripL (cs : List Char) : List Char :=
  (((cs.dropWhile Char.isWhitespace).reverse).dropWhile Char.isWhitespace).reverse

/-- String wrapper for `pyReplaceL`. -/
def pyReplace (s pat rep : String) : String :=
  String.mk (pyReplaceL pat.toList rep.toList s.toList)

/-- String wrapper for `pyStripL`. -/
def pyStrip (s : String) : String := String.mk (pyStripL s.toList)

/-- The cleaning pipeline of `EnhancedImageTagger._parse_gemini_response`
(src/vision_gemini_tagger.py, lines 161-162): the `re.sub`, then removal of
code-fence markers, then `strip`. -/
def vtClean (raw : String) : String :=
  pyStrip (pyReplace (pyReplace (String.mk (vtSubstituteL raw.toList)) "```json" "") "```" "")

/-- The validation loop of `EnhancedImageTagger._parse_gemini_response`
(lines 167-171): for each required field, test membership and assign the
placeholder when absent. On a non-dict parse result the membership test or
the assignment raises a `TypeError`, which the surrounding
`except json.JSONDecodeError` does not catch. -/
def vtRepairLoop : List String → Json → Except String Json
  | [], j => .ok j
  | f :: fs, j => do
    let b ← pyContains f j
    if b then
      vtRepairLoop fs j
    else do
      let j1 ← pySetItem j f placeholder
      vtRepairLoop fs j1

namespace EnhancedImageTagger

/-- `EnhancedImageTagger._parse_gemini_response` (src/vision_gemini_tagger.py,
lines 155-182), taking the already-extracted response text: clean the text,
`json.loads` it, and repair the five required fields; a decode error yields
the full default record, while a `TypeError` from repairing a non-dict parse
result propagates (modelled as `Except.error`). -/
def parse_gemini_response (loads : String → Option Json) (raw_text : String) :
    Except String Json :=
  match loads (vtClean raw_text) with
  | none => .ok (.obj defaultRecord)
  | some v => vtRepairLoop requiredFields v

end EnhancedImageTagger

/-- Sample generative response: a JSON object with only two of the five keys. -/
def sampleTwoField : String :=
  "\x7b\"title\": \"A\", \"description\": \"B\"\x7d"

/-- Sample generative response: a JSON object with four of the five keys,
missing only `keywords`. -/
def sampleFourField : String :=
  "\x7b\"title\": \"A\", \"description\": \"B\", \"main_genre\": \"C\", \"secondary_genre\": \"D\"\x7d"

/-- Concrete stand-in for `json.loads`, agreeing with the real parser on the
handful of sample inputs used in witnesses and counterexamples, and failing
everywhere else. -/
def loadsFix (s : String) : Option Json :=
  if s = "5" then some (.num 5)
  else if s = sampleTwoField then
    some (.obj [("title", .str "A"), ("description", .str "B")])
  else if s = sampleFourField then
    some (.obj [("title", .str "A"), ("description", .str "B"),
                ("main_genre", .str "C"), ("secondary_genre", .str "D")])
  else none

example : ImageProcessor.parse_gemini_response loadsFix "not json" = .obj [] := rfl

example : ImageProcessor.parse_gemini_response loadsFix sampleTwoField
    = .obj [("title", .str "A"), ("description", .str "B")] := rfl

example : EnhancedImageTagger.parse_gemini_response loadsFix "5" = .error "TypeError" := rfl

example : EnhancedImageTagger.parse_gemini_response loadsFix "not json"
    = .ok (.obj defaultRecord) := rfl

example : EnhancedImageTagger.parse_gemini_response loadsFix sampleFourField
    = .ok (.obj [("title", .str "A"), ("description", .str "B"),
                 ("main_genre", .str "C"), ("secondary_genre", .str "D"),
                 ("keywords", .str "Non spécifié")]) := rfl

/-- Python `str.isalnum`, at ASCII precision (the source may also keep
non-ASCII Unicode alphanumerics; no claim depends on those). -/
def pyIsAlnum (c : Char) : Bool := c.isAlphanum

/-- Python `str.lower` at ASCII precision. -/
def pyToLower (s : String) : String := String.mk (s.toList.map Char.toLower)

/-- Python `s.endswith(suffix)`. -/
def pyEndsWith (s suffix : String) : Bool := decide (suffix.toList <:+ s.toList)

/-- Python `os.path.basename` for POSIX paths: everything after the last
slash. -/
def pyBasenameL (cs : List Char) : List Char :=
  ((cs.reverse).takeWhile (fun c => c ≠ '/')).reverse

/-- String wrapper for `pyBasenameL`. -/
def pyBasename (s : String) : String := String.mk (pyBasenameL s.toList)

/-- Python `os.path.dirname` for POSIX paths: the prefix up to and including
the last slash; if that prefix is neither empty nor all slashes, trailing
slashes are stripped from it. -/
def pyDirname (s : String) : String :=
  let cs := s.toList
  let head := cs.take (cs.length - (pyBasenameL cs).length)
  if head ≠ [] ∧ head.any (fun c => c ≠ '/') then
    String.mk (((head.reverse).dropWhile (fun c => c = '/')).reverse)
  else
    String.mk head

/-- Whether a path string starts with a slash. -/
def headIsSlash (s : String) : Bool :=
  match s.toList with
  | [] => false
  | c :: _ => c = '/'

/-- Whether a path string ends with a slash. -/
def lastIsSlash (s : String) : Bool :=
  match s.toList.reverse with
  | [] => false
  | c :: _ => c = '/'

/-- Python `os.path.join(a, b)` for POSIX paths and a single component. -/
def pyJoinPath (a b : String) : String :=
  if headIsSlash b then b
  else if a = "" ∨ lastIsSlash a then a ++ b
  else a ++ "/" ++ b

/-- The extension part of Python `os.path.splitext` for POSIX paths: from
the last dot of the basename, provided some non-dot character of the
basename precedes that dot (so an all-leading-dots basename such as
`.bashrc` has no extension). Returns `[]` when there is no extension; a
non-empty result always starts with the dot. -/
def splitextExtCore (rev : List Char) : List Char :=
  match rev.drop ((rev.takeWhile (fun c => c ≠ '.')).length) with
  | [] => []
  | _ :: preRev =>
    if preRev.any (fun c => c ≠ '.') then
      '.' :: (rev.takeWhile (fun c => c ≠ '.')).reverse
    else []

/-- Dispatcher for `splitextExtCore` on the reversed basename. -/
def splitextExtL (cs : List Char) : List Char :=
  splitextExtCore ((pyBasenameL cs).reverse)

/-- String wrapper for `splitextExtL`. -/
def splitextExt (s : String) : String := String.mk (splitextExtL s.toList)

example : splitextExt "/pics/photo.JPG" = ".JPG" := rfl
example : splitextExt "/pics/.bashrc" = "" := rfl
example : splitextExt "/pics/archive.tar.gz" = ".gz" := rfl
example : splitextExt "a." = "." := rfl
example : pyDirname "/pics/photo.jpg" = "/pics" := rfl
example : pyDirname "photo.jpg" = "" := rfl
example : pyDirname "/photo.jpg" = "/" := rfl
example : pyJoinPath "/pics" ".jpg" = "/pics/.jpg" := rfl
example : pyJoinPath "" "a.jpg" = "a.jpg" := rfl

namespace ImageProcessor

/-- The character-class step of `ImageProcessor._rename_file` line 125: keep
alphanumerics, spaces, hyphens, underscores and periods; replace every other
character with an underscore. -/
def sanitizeChar (c : Char) : Char :=
  if pyIsAlnum c ∨ c = ' ' ∨ c = '-' ∨ c = '_' ∨ c = '.' then c else '_'

/-- The title sanitisation of `ImageProcessor._rename_file` (lines 125-126):
strip the title, map `sanitizeChar` over it, truncate to 50 characters, and
strip again. -/
def sanitize_title (title : String) : String :=
  pyStrip (String.mk (((pyStrip title).toList.map sanitizeChar).take 50))

/-- The collision loop of `ImageProcessor._rename_file` (lines 133-137):
while the candidate path exists, retry with the next counter. The extra
`Nat` is structural-recursion fuel; the call site passes `fs.length + 1`,
which always suffices because the candidate names are pairwise distinct
while the filesystem is finite. -/
def collisionLoop (fs : List String) (dir base ext : String) : Nat → Nat → String
  | 0, counter => pyJoinPath dir (base ++ "_" ++ Nat.repr counter ++ ext)
  | fuel + 1, counter =>
    let p := pyJoinPath dir (base ++ "_" ++ Nat.repr counter ++ ext)
    if p ∈ fs then collisionLoop fs dir base ext fuel (counter + 1) else p

/-- `ImageProcessor._rename_file` (src/src/image_processor.py, lines
120-143). `fs` is the set of existing paths (`os.path.exists`), including
the file being renamed; `renameOk` is the outcome of the final `os.rename`.
A non-string title makes `title.strip()` raise, and a failed rename raises;
both are caught by the function's own handler, which returns the original
path. -/
def rename_file (fs : List String) (renameOk : Bool) (original_path : String)
    (title : Json) : String :=
  match title with
  | .str t =>
    let sanitized := sanitize_title t
    let ext := pyToLower (splitextExt original_path)
    let dir := pyDirname original_path
    let first := pyJoinPath dir (sanitized ++ ext)
    let new_path :=
      if first ∈ fs then collisionLoop fs dir sanitized ext (fs.length + 1) 1 else first
    if renameOk then new_path else original_path
  | _ => original_path

/-- The extension test of `ImageProcessor._write_metadata` line 153: the
legacy IPTC write is attempted only for `.jpg`/`.jpeg` paths. -/
def iptc_applicable (image_path : String) : Bool :=
  pyEndsWith (pyToLower image_path) ".jpg" || pyEndsWith (pyToLower image_path) ".jpeg"

/-- `ImageProcessor._write_metadata` (src/src/image_processor.py, lines
145-185): attempt the IPTC write only on `.jpg`/`.jpeg` paths and the XMP
write always, each inside its own handler that clears the success flag, and
return the flag. `iptcOk`/`xmpOk` are the outcomes of the external library
writes. -/
def write_metadata (image_path : String) (iptcOk xmpOk : Bool) : Bool :=
  let success := true
  let success := if iptc_applicable image_path then (if iptcOk then success else false) else success
  if xmpOk then success else false

end ImageProcessor

example : ImageProcessor.sanitize_title "Sunset  Over/Lake!!" = "Sunset  Over_Lake__" := rfl
example : ImageProcessor.rename_file ["/pics/photo.JPG"] true "/pics/photo.JPG" (.str "   ")
    = "/pics/.jpg" := rfl
example : ImageProcessor.rename_file ["/pics/photo.jpg", "/pics/Sunset.jpg"] true
    "/pics/photo.jpg" (.str "Sunset") = "/pics/Sunset_1.jpg" := rfl
example : ImageProcessor.write_metadata "/pics/a.png" false true = true := rfl
example : ImageProcessor.write_metadata "/pics/a.jpg" false true = false := rfl

/-- Modelled from the spec: the dimension arithmetic of PIL
`Image.thumbnail((maxSize, maxSize))`, an out-of-scope external codec
operation (spec §4.1: shrink so neither dimension exceeds the maximum,
preserving aspect ratio, never upscaling; each target dimension is clamped
to at least one pixel). Fractional scaling is modelled with floor division
in place of PIL's float rounding. -/
def thumbnailDims (w h maxSize : Nat) : Nat × Nat :=
  if w ≤ maxSize ∧ h ≤ maxSize then (w, h)
  else if w ≤ h then (max 1 (maxSize * w / h), maxSize)
  else (maxSize, max 1 (maxSize * h / w))

/-- Output of the Image Normalizer: a re-encoded JPEG (tracked by its
dimensions and pixel mode) or the original raw bytes from the fallback
read. -/
inductive NormalizedImage where
  | jpeg (w h : Nat) (mode : String)
  | raw (bs : List Nat)

/-- The fallback branch shared by both resize functions: `except` re-opens
the original file and returns its raw bytes; if that read itself fails
(unreadable file), the new exception propagates out of the function. -/
def resizeFallback (readRaw : Except String (List Nat)) :
    Except String NormalizedImage :=
  match readRaw with
  | .ok bs => .ok (.raw bs)
  | .error e => .error e

namespace ImageProcessor

/-- `ImageProcessor.resize_image` (src/src/image_processor.py, lines 19-34):
open the image (`openResult` is the external PIL decode, giving width,
height and pixel mode), convert palette/alpha modes to RGB, thumbnail to the
maximum size, and save as JPEG (`saveResult` is the external encode); on any
failure fall back to reading the original bytes. -/
def resize_image (openResult : Except String (Nat × Nat × String))
    (saveResult : Except String Unit) (readRaw : Except String (List Nat))
    (maxSize : Nat) : Except String NormalizedImage :=
  match openResult with
  | .ok (w, h, mode) =>
    let mode1 := if mode = "P" ∨ mode = "RGBA" then "RGB" else mode
    match saveResult with
    | .ok _ =>
      let wh := thumbnailDims w h maxSize
      .ok (.jpeg wh.1 wh.2 mode1)
    | .error _ => resizeFallback readRaw
  | .error _ => resizeFallback readRaw

end ImageProcessor

namespace EnhancedImageTagger

/-- `EnhancedImageTagger._resize_image` (src/vision_gemini_tagger.py, lines
79-90): as `ImageProcessor.resize_image` but without the mode conversion. -/
def resize_image (openResult : Except String (Nat × Nat × String))
    (saveResult : Except String Unit) (readRaw : Except String (List Nat))
    (maxSize : Nat) : Except String NormalizedImage :=
  match openResult with
  | .ok (w, h, mode) =>
    match saveResult with
    | .ok _ =>
      let wh := thumbnailDims w h maxSize
      .ok (.jpeg wh.1 wh.2 mode)
    | .error _ => resizeFallback readRaw
  | .error _ => resizeFallback readRaw

end EnhancedImageTagger

/-- Outcomes of every external collaborator consulted by one per-image
pipeline run: PIL decode, JPEG encode, raw file read, the Vision API call,
the generative call (its raw response text), `json.loads`, `os.rename`, the
filesystem contents for the existence checks, the two metadata writes, the
wall-clock measurement, and the report timestamp. -/
structure Env where
  openResult : Except String (Nat × Nat × String)
  saveResult : Except String Unit
  readRaw : Except String (List Nat)
  visionResp : Except String (List String × List String)
  geminiResp : Except String String
  loads : String → Option Json
  renameOk : Bool
  fs : List String
  iptcOk : Bool
  xmpOk : Bool
  elapsed : Int
  timestamp : String

namespace ImageProcessor

/-- `ImageProcessor._analyze_with_vision` (src/src/image_processor.py, lines
73-87): build the request and return the labels and web entities. There is
no handler here, so an error from the remote call propagates to the caller. -/
def analyze_with_vision (resp : Except String (List String × List String)) :
    Except String (List (String × Json)) :=
  match resp with
  | .error e => .error e
  | .ok lw =>
    .ok [("labels", .arr (lw.1.map .str)), ("web_entities", .arr (lw.2.map .str))]

/-- `ImageProcessor._analyze_with_gemini` (lines 89-108): call the model and
parse its response text; any exception is caught and the empty dict
returned. -/
def analyze_with_gemini (resp : Except String String)
    (loads : String → Option Json) : Json :=
  match resp with
  | .error _ => .obj []
  | .ok text => parse_gemini_response loads text

/-- Python `{**base, **kvs}`-style splice used by the result literal of
`process_single_image` line 64: merging a dict into a dict literal updates
existing keys in place and appends new ones; splicing a non-mapping raises
`TypeError`. -/
def spliceInto (base : List (String × Json)) : Json →
    Except String (List (String × Json))
  | .obj kvs => .ok (kvs.foldl (fun acc p => setKey acc p.1 p.2) base)
  | _ => .error "TypeError"

/-- The `try` body of `ImageProcessor.process_single_image` (lines 38-67):
resize, Vision analysis, Gemini analysis, rename, metadata write, and result
assembly, in source order. `os.path.abspath` is modelled as the identity
(inputs are taken to be absolute paths). -/
def pipeline (env : Env) (image_path : String) :
    Except String (List (String × Json)) := do
  let original_path := image_path
  let _bytes ← resize_image env.openResult env.saveResult env.readRaw 1024
  let _vision ← analyze_with_vision env.visionResp
  let gemini := analyze_with_gemini env.geminiResp env.loads
  let title ← pyGetD gemini "title" (.str "")
  let new_path := rename_file env.fs env.renameOk original_path title
  let _title2 ← pyGetD gemini "title" (.str "")
  let _description ← pyGetD gemini "description" (.str "")
  let _main_genre ← pyGetD gemini "main_genre" (.str "")
  let _secondary_genre ← pyGetD gemini "secondary_genre" (.str "")
  let _keywords ← pyGetD gemini "keywords" (.arr [])
  let metadata_status := write_metadata new_path env.iptcOk env.xmpOk
  let base :=
    [("original_file", .str (pyBasename original_path)),
     ("new_file", .str (pyBasename new_path)),
     ("path", .str new_path)]
  let r1 ← spliceInto base gemini
  let r2 := setKey r1 "metadata_written" (.bool metadata_status)
  let r3 := setKey r2 "processing_time" (.num env.elapsed)
  pure r3

/-- `ImageProcessor.process_single_image` (lines 36-71): run the pipeline;
any uncaught exception is converted into a record with the single key
`error`. -/
def process_single_image (env : Env) (image_path : String) :
    List (String × Json) :=
  match pipeline env image_path with
  | .ok r => r
  | .error e => [("error", .str e)]

end ImageProcessor

/-- The batch loop of `src/src/main.py` (lines 27-33): one orchestrator call
per enumerated file, results appended in order. -/
def mainBatch (env : Env) (files : List String) : List (List (String × Json)) :=
  files.map (ImageProcessor.process_single_image env)

/-- Python `x + y` as used in `_format_result` line 193: list concatenation
or string concatenation; mixing the two raises `TypeError`. -/
def pyAdd : Json → Json → Except String Json
  | .arr xs, .arr ys => .ok (.arr (xs ++ ys))
  | .str a, .str b => .ok (.str (a ++ b))
  | _, _ => .error "TypeError"

/-- Extract the strings of a JSON array; `none` when some element is not a
string. -/
def allStrs : List Json → Option (List String)
  | [] => some []
  | .str s :: rest => (allStrs rest).map (fun ss => s :: ss)
  | _ :: _ => none

/-- Python `sep.join(x)`: joins a list of strings (a non-string element
raises `TypeError`), joins the characters of a string, and raises
`TypeError` on non-iterable values. -/
def pyJoin (sep : String) : Json → Except String String
  | .arr xs =>
    match allStrs xs with
    | some ss => .ok (String.intercalate sep ss)
    | none => .error "TypeError"
  | .str s => .ok (String.intercalate sep (s.toList.map (fun c => String.mk [c])))
  | _ => .error "TypeError"

namespace EnhancedImageTagger

/-- `EnhancedImageTagger._vision_analysis` (src/vision_gemini_tagger.py,
lines 92-110): the labels and web entities of the remote response; its own
handler turns any remote error into two empty lists, so this function never
raises. -/
def vision_analysis (resp : Except String (List String × List String)) :
    List String × List String :=
  match resp with
  | .ok lw => lw
  | .error _ => ([], [])

/-- `EnhancedImageTagger._gemini_analysis` (lines 112-153): call the model
and parse; the `except Exception` returns the empty dict on any error,
including a `TypeError` escaping `_parse_gemini_response`. -/
def gemini_analysis (resp : Except String String)
    (loads : String → Option Json) : Json :=
  match resp with
  | .error _ => .obj []
  | .ok text =>
    match parse_gemini_response loads text with
    | .ok v => v
    | .error _ => .obj []

/-- `EnhancedImageTagger._format_result` (lines 184-195): merge the Vision
and Gemini data into the flat result record. The `.get` calls raise on a
non-dict `gemini`, and the keyword join raises when `keywords` is not a list
of strings; those exceptions propagate to `process_image`. -/
def format_result (image_path : String) (vision : List String × List String)
    (gemini : Json) (ts : String) : Except String (List (String × Json)) := do
  let title ← pyGetD gemini "title" (.str (String.intercalate " " (vision.1.take 3)))
  let description ← pyGetD gemini "description" (.str (String.intercalate " " (vision.2.take 3)))
  let main_genre ← pyGetD gemini "main_genre" placeholder
  let secondary_genre ← pyGetD gemini "secondary_genre" placeholder
  let kw ← pyGetD gemini "keywords" (.arr [])
  let kwAll ← pyAdd kw (.arr ((vision.1.take 3).map .str))
  let kwStr ← pyJoin ", " kwAll
  pure
    [("file", .str (pyBasename image_path)),
     ("path", .str image_path),
     ("title", title),
     ("description", description),
     ("main_genre", main_genre),
     ("secondary_genre", secondary_genre),
     ("keywords", .str kwStr),
     ("timestamp", .str ts)]

/-- The `try` body of `EnhancedImageTagger.process_image` (lines 54-70):
resize, Vision analysis, Gemini analysis, result formatting. -/
def pipeline (env : Env) (image_path : String) :
    Except String (List (String × Json)) := do
  let _bytes ← resize_image env.openResult env.saveResult env.readRaw 1024
  let vision := vision_analysis env.visionResp
  let gemini := gemini_analysis env.geminiResp env.loads
  format_result image_path vision gemini env.timestamp

/-- `EnhancedImageTagger.process_image` (lines 52-77): run the pipeline; any
uncaught exception is converted into a record with exactly the two keys
`file` and `error`. -/
def process_image (env : Env) (image_path : String) : List (String × Json) :=
  match pipeline env image_path with
  | .ok r => r
  | .error e => [("file", .str (pyBasename image_path)), ("error", .str e)]

end EnhancedImageTagger

example : String.intercalate ", " ["a", "b"] = "a, b" := rfl

example :
    EnhancedImageTagger.format_result "/pics/a.jpg" (["cat", "sky"], ["x"]) (.obj []) "t"
    = .ok [("file", .str "a.jpg"), ("path", .str "/pics/a.jpg"),
           ("title", .str "cat sky"), ("description", .str "x"),
           ("main_genre", placeholder), ("secondary_genre", placeholder),
           ("keywords", .str "cat, sky"), ("timestamp", .str "t")] := rfl

example :
    EnhancedImageTagger.format_result "/pics/a.jpg" ([], [])
      (.obj [("keywords", .str "Non spécifié")]) "t"
    = .error "TypeError" := rfl

/-- Specification-level description of the repair loop on a dict: missing
required fields are appended, in order, with the placeholder value. -/
def repairFields : List String → List (String × Json) → List (String × Json)
  | [], kvs => kvs
  | f :: fs, kvs =>
    if hasKey kvs f then repairFields fs kvs
    else repairFields fs (kvs ++ [(f, placeholder)])

theorem setKey_of_not_hasKey (kvs : List (String × Json)) (k : String) (v : Json)
    (h : hasKey kvs k = false) : setKey kvs k v = kvs ++ [(k, v)] := by
  induction kvs with
  | nil => rfl
  | cons p rest ih =>
    obtain ⟨k1, v1⟩ := p
    by_cases hk : k1 == k
    · exfalso
      simp [hasKey, lookupKey, List.find?_cons, hk] at h
    · have h2 : hasKey rest k = false := by
        simpa [hasKey, lookupKey, List.find?_cons, hk] using h
      simp [setKey, hk, ih h2]

theorem vtRepairLoop_obj (fields : List String) (kvs : List (String × Json)) :
    vtRepairLoop fields (.obj kvs) = .ok (.obj (repairFields fields kvs)) := by
  induction fields generalizing kvs with
  | nil => rfl
  | cons f fs ih =>
    by_cases h : hasKey kvs f
    · simp [vtRepairLoop, pyContains, h, repairFields, ih, Bind.bind, Except.bind]
    · simp only [Bool.not_eq_true] at h
      simp [vtRepairLoop, pyContains, pySetItem, h, repairFields,
        setKey_of_not_hasKey kvs f placeholder h, ih, Bind.bind, Except.bind]

theorem lookupKey_append (a b : List (String × Json)) (k : String) :
    lookupKey (a ++ b) k =
      (lookupKey a k).elim (lookupKey b k) (fun v => some v) := by
  induction a with
  | nil => simp [lookupKey]
  | cons p rest ih =>
    by_cases hk : p.1 == k
    · simp [lookupKey, List.find?_cons, hk]
    · simpa [lookupKey, List.find?_cons, hk] using ih

theorem repairFields_not_mem (fields : List String) (kvs : List (String × Json))
    (k : String) (h : k ∉ fields) :
    lookupKey (repairFields fields kvs) k = lookupKey kvs k := by
  induction fields generalizing kvs with
  | nil => rfl
  | cons f fs ih =>
    have hkf : k ≠ f := fun he => h (he ▸ List.mem_cons_self f fs)
    have hfs : k ∉ fs := fun hm => h (List.mem_cons_of_mem f hm)
    by_cases hf : hasKey kvs f
    · simp [repairFields, hf, ih _ hfs]
    · simp only [Bool.not_eq_true] at hf
      rw [repairFields, if_neg (by simp [hf]), ih _ hfs, lookupKey_append]
      have : lookupKey [(f, placeholder)] k = none := by
        simp [lookupKey, List.find?_cons, beq_eq_false_iff_ne.mpr (Ne.symm hkf)]
      rw [this]
      cases lookupKey kvs k <;> rfl

theorem repairFields_mem (fields : List String) (kvs : List (String × Json))
    (k : String) (hnd : fields.Nodup) (h : k ∈ fields) :
    lookupKey (repairFields fields kvs) k =
      some ((lookupKey kvs k).getD placeholder) := by
  induction fields generalizing kvs with
  | nil => cases h
  | cons f fs ih =>
    rw [List.nodup_cons] at hnd
    rcases List.mem_cons.mp h with he | hm
    · subst he
      by_cases hf : hasKey kvs k
      · rw [repairFields, if_pos hf, repairFields_not_mem fs kvs k hnd.1]
        simp only [hasKey, Option.isSome_iff_exists] at hf
        obtain ⟨v, hv⟩ := hf
        simp [hv]
      · simp only [Bool.not_eq_true] at hf
        rw [repairFields, if_neg (by simp [hf]),
          repairFields_not_mem fs _ k hnd.1, lookupKey_append]
        have hnone : lookupKey kvs k = none := by
          simpa [hasKey, Option.isSome_iff_exists] using hf
        rw [hnone]
        simp [lookupKey, List.find?_cons]
    · have hkf : k ≠ f := fun he => hnd.1 (he ▸ hm)
      by_cases hf : hasKey kvs f
      · rw [repairFields, if_pos hf]
        exact ih _ hnd.2 hm
      · simp only [Bool.not_eq_true] at hf
        rw [repairFields, if_neg (by simp [hf]), ih _ hnd.2 hm, lookupKey_append]
        have : lookupKey [(f, placeholder)] k = none := by
          simp [lookupKey, List.find?_cons, beq_eq_false_iff_ne.mpr (Ne.symm hkf)]
        rw [this]
        cases lookupKey kvs k <;> rfl

/-- C1, counterexample. The claim says that when no JSON object can be
extracted and parsed, the result is the full default record with all five
fields set to the placeholder. On `ImageProcessor._parse_gemini_response`
(the first source location the claim cites), the unparsable text
`"not json"` instead yields the empty record, which is not the default
record and has no `title` field at all. -/
theorem C1_counterexample :
    ImageProcessor.parse_gemini_response loadsFix "not json" = .obj [] ∧
    Json.obj [] ≠ Json.obj defaultRecord := by
  exact ⟨rfl, by simp [defaultRecord]⟩

/-- C1, amended. The repair asymmetry holds only for the
`EnhancedImageTagger` reconciler: a decode failure yields the full default
record, and a parse yielding an object gets exactly its absent required
keys set to the placeholder with every other key unchanged. The
`ImageProcessor` reconciler instead returns the empty record on any
extraction or parse failure and returns a successful parse entirely
unchanged, filling nothing. -/
theorem C1_amended (loads : String → Option Json) (text : String) :
    (braceSpanL text.toList = none →
      ImageProcessor.parse_gemini_response loads text = .obj []) ∧
    (∀ cs, braceSpanL text.toList = some cs → loads (String.mk cs) = none →
      ImageProcessor.parse_gemini_response loads text = .obj []) ∧
    (∀ cs v, braceSpanL text.toList = some cs → loads (String.mk cs) = some v →
      ImageProcessor.parse_gemini_response loads text = v) ∧
    (loads (vtClean text) = none →
      EnhancedImageTagger.parse_gemini_response loads text = .ok (.obj defaultRecord)) ∧
    (∀ kvs, loads (vtClean text) = some (.obj kvs) →
      ∃ kvs2,
        EnhancedImageTagger.parse_gemini_response loads text = .ok (.obj kvs2) ∧
        (∀ f, f ∈ requiredFields →
          lookupKey kvs2 f = some ((lookupKey kvs f).getD placeholder)) ∧
        (∀ f, f ∉ requiredFields → lookupKey kvs2 f = lookupKey kvs f)) := by
  refine ⟨?_, ?_, ?_, ?_, ?_⟩
  · intro h
    simp only [String.toList] at h
    simp [ImageProcessor.parse_gemini_response, h]
  · intro cs h1 h2
    simp only [String.toList] at h1
    simp [ImageProcessor.parse_gemini_response, h1, h2]
  · intro cs v h1 h2
    simp only [String.toList] at h1
    simp [ImageProcessor.parse_gemini_response, h1, h2]
  · intro h
    simp [EnhancedImageTagger.parse_gemini_response, h]
  · intro kvs h
    refine ⟨repairFields requiredFields kvs, ?_, ?_, ?_⟩
    · simp [EnhancedImageTagger.parse_gemini_response, h, vtRepairLoop_obj]
    · intro f hf
      exact repairFields_mem requiredFields kvs f (by decide) hf
    · intro f hf
      exact repairFields_not_mem requiredFields kvs f hf

/-- C1, witness: the amended theorem applied to the unparsable text
`"not json"` (full failure) and to `sampleTwoField` (partial repair, where
the absent `main_genre` becomes the placeholder and the present `title` is
unchanged). -/
theorem C1_amended_witness :
    ImageProcessor.parse_gemini_response loadsFix "not json" = .obj [] ∧
    ∃ kvs2,
      EnhancedImageTagger.parse_gemini_response loadsFix sampleTwoField = .ok (.obj kvs2) ∧
      lookupKey kvs2 "main_genre" = some placeholder ∧
      lookupKey kvs2 "title" = some (.str "A") := by
  constructor
  · exact (C1_amended loadsFix "not json").1 rfl
  · obtain ⟨kvs2, h1, h2, _⟩ := (C1_amended loadsFix sampleTwoField).2.2.2.2
      [("title", .str "A"), ("description", .str "B")] rfl
    exact ⟨kvs2, h1, h2 "main_genre" (by decide), h2 "title" (by decide)⟩

/-- C2, counterexample. The claim says the reconciler never raises past its
boundary for any input text, including a non-object top-level value. On
`EnhancedImageTagger._parse_gemini_response`, the text `"5"` parses to the
number 5, the membership test `"title" not in 5` raises a `TypeError`, and
the surrounding handler only catches `json.JSONDecodeError`, so the
exception escapes (modelled as `Except.error`). -/
theorem C2_counterexample :
    EnhancedImageTagger.parse_gemini_response loadsFix "5" = .error "TypeError" := rfl

/-- C2, amended. The `ImageProcessor` reconciler never raises but may return
an incomplete record: its result is either the empty record or the parsed
value unchanged. The `EnhancedImageTagger` reconciler returns a record with
all five required keys whenever parsing fails with a decode error or yields
an object, but a non-object parse result can raise a `TypeError` past its
boundary (see the counterexample). -/
theorem C2_amended (loads : String → Option Json) (text : String) :
    (ImageProcessor.parse_gemini_response loads text = .obj [] ∨
      ∃ cs v, braceSpanL text.toList = some cs ∧ loads (String.mk cs) = some v ∧
        ImageProcessor.parse_gemini_response loads text = v) ∧
    (loads (vtClean text) = none →
      EnhancedImageTagger.parse_gemini_response loads text = .ok (.obj defaultRecord) ∧
      ∀ f, f ∈ requiredFields → (lookupKey defaultRecord f).isSome = true) ∧
    (∀ kvs, loads (vtClean text) = some (.obj kvs) →
      ∃ kvs2,
        EnhancedImageTagger.parse_gemini_response loads text = .ok (.obj kvs2) ∧
        ∀ f, f ∈ requiredFields → (lookupKey kvs2 f).isSome = true) := by
  refine ⟨?_, ?_, ?_⟩
  · rcases h : braceSpanL text.toList with _ | cs
    · left
      simp only [String.toList] at h
      simp [ImageProcessor.parse_gemini_response, h]
    · rcases h2 : loads (String.mk cs) with _ | v
      · left
        have h3 := h
        simp only [String.toList] at h3
        simp [ImageProcessor.parse_gemini_response, h3, h2]
      · refine Or.inr ⟨cs, v, rfl, h2, ?_⟩
        have h3 := h
        simp only [String.toList] at h3
        simp [ImageProcessor.parse_gemini_response, h3, h2]
  · intro h
    refine ⟨by simp [EnhancedImageTagger.parse_gemini_response, h], ?_⟩
    intro f hf
    fin_cases hf <;> rfl
  · intro kvs h
    refine ⟨repairFields requiredFields kvs, ?_, ?_⟩
    · simp [EnhancedImageTagger.parse_gemini_response, h, vtRepairLoop_obj]
    · intro f hf
      rw [repairFields_mem requiredFields kvs f (by decide) hf]
      rfl

/-- C2, witness: the amended theorem applied at the unparsable text
`"not json"`, whose reconciliation is the full default record. -/
theorem C2_amended_witness :
    EnhancedImageTagger.parse_gemini_response loadsFix "not json"
      = .ok (.obj defaultRecord) :=
  ((C2_amended loadsFix "not json").2.1 rfl).1

/-- C3: the code violates the keywords-are-a-sequence invariant. For a
response whose JSON object has the four text fields but no `keywords`, the
repair loop of `EnhancedImageTagger._parse_gemini_response` fills the
missing `keywords` key with the placeholder string `"Non spécifié"`, a bare
string rather than a sequence — contradicting the function's own decode-
failure branch (which uses `[]`) and breaking the downstream
`", ".join(keywords + labels)` in `_format_result`. -/
theorem C3_keywords_filled_with_bare_string :
    EnhancedImageTagger.parse_gemini_response loadsFix sampleFourField
      = .ok (.obj [("title", .str "A"), ("description", .str "B"),
                   ("main_genre", .str "C"), ("secondary_genre", .str "D"),
                   ("keywords", .str "Non spécifié")]) ∧
    lookupKey [("title", .str "A"), ("description", .str "B"),
               ("main_genre", .str "C"), ("secondary_genre", .str "D"),
               ("keywords", .str "Non spécifié")] "keywords"
      = some (.str "Non spécifié") ∧
    EnhancedImageTagger.format_result "/pics/a.jpg" ([], [])
      (.obj [("keywords", .str "Non spécifié")]) "t" = .error "TypeError" :=
  ⟨rfl, rfl, rfl⟩

/-- Environment where every stage succeeds except the two remote calls:
the Vision call raises `ServiceUnavailable` and the generative call raises
`GeminiDown`. -/
def envVisionFail : Env :=
  ⟨.ok (800, 600, "RGB"), .ok (), .ok [1, 2], .error "ServiceUnavailable",
   .error "GeminiDown", loadsFix, true, [], true, true, 0, "ts"⟩

/-- Environment for an unreadable input file: the PIL open raises and the
fallback raw read raises `FileNotFoundError`. -/
def envOpenFail : Env :=
  ⟨.error "cannot identify image file", .ok (), .error "FileNotFoundError",
   .ok ([], []), .error "GeminiDown", loadsFix, true, [], true, true, 0, "ts"⟩

/-- C4, counterexample. The claim says a failed label-detection call yields
empty lists and the image's rename and metadata write still proceed. In
`ImageProcessor._analyze_with_vision` there is no handler, so the error
propagates and the per-image result IS the failure record (no `title`, no
rename, no metadata write). -/
theorem C4_counterexample :
    ImageProcessor.process_single_image envVisionFail "/pics/a.jpg"
      = [("error", .str "ServiceUnavailable")] ∧
    lookupKey (ImageProcessor.process_single_image envVisionFail "/pics/a.jpg")
      "title" = none := ⟨rfl, rfl⟩

/-- C4, amended. Only the `EnhancedImageTagger` variant treats detection as
advisory: `_vision_analysis` converts any remote error into two empty lists
and the pipeline still produces a full (non-failure) result record. In the
`ImageProcessor` variant the detection error escapes `_analyze_with_vision`
and the per-image result is the failure record. -/
theorem C4_amended (env : Env) (path e g : String) :
    EnhancedImageTagger.vision_analysis (.error e) = ([], []) ∧
    (env.visionResp = .error e → env.geminiResp = .error g →
      (∃ b, EnhancedImageTagger.resize_image env.openResult env.saveResult
          env.readRaw 1024 = .ok b) →
      EnhancedImageTagger.process_image env path
        = [("file", .str (pyBasename path)), ("path", .str path),
           ("title", .str ""), ("description", .str ""),
           ("main_genre", placeholder), ("secondary_genre", placeholder),
           ("keywords", .str ""), ("timestamp", .str env.timestamp)] ∧
      lookupKey (EnhancedImageTagger.process_image env path) "error" = none) ∧
    (env.visionResp = .error e →
      (∃ b, ImageProcessor.resize_image env.openResult env.saveResult
          env.readRaw 1024 = .ok b) →
      ImageProcessor.process_single_image env path = [("error", .str e)]) := by
  refine ⟨rfl, ?_, ?_⟩
  · intro hv hg hb
    obtain ⟨b, hb⟩ := hb
    have hrec : EnhancedImageTagger.process_image env path
        = [("file", .str (pyBasename path)), ("path", .str path),
           ("title", .str ""), ("description", .str ""),
           ("main_genre", placeholder), ("secondary_genre", placeholder),
           ("keywords", .str ""), ("timestamp", .str env.timestamp)] := by
      simp [EnhancedImageTagger.process_image, EnhancedImageTagger.pipeline, hb, hv, hg,
        EnhancedImageTagger.vision_analysis, EnhancedImageTagger.gemini_analysis,
        EnhancedImageTagger.format_result, pyGetD, pyAdd, pyJoin, allStrs, lookupKey,
        Bind.bind, Except.bind, placeholder]
      rfl
    exact ⟨hrec, by rw [hrec]; rfl⟩
  · intro hv hb
    obtain ⟨b, hb⟩ := hb
    simp [ImageProcessor.process_single_image, ImageProcessor.pipeline, hb, hv,
      ImageProcessor.analyze_with_vision, Bind.bind, Except.bind]

/-- C4, witness: the amended theorem applied to `envVisionFail`, where both
remote calls fail; the `EnhancedImageTagger` pipeline still emits a full
record, while the `ImageProcessor` pipeline emits the failure record. -/
theorem C4_amended_witness :
    EnhancedImageTagger.process_image envVisionFail "/pics/a.jpg"
      = [("file", .str "a.jpg"), ("path", .str "/pics/a.jpg"),
         ("title", .str ""), ("description", .str ""),
         ("main_genre", placeholder), ("secondary_genre", placeholder),
         ("keywords", .str ""), ("timestamp", .str "ts")] ∧
    ImageProcessor.process_single_image envVisionFail "/pics/a.jpg"
      = [("error", .str "ServiceUnavailable")] := by
  constructor
  · exact ((C4_amended envVisionFail "/pics/a.jpg" "ServiceUnavailable" "GeminiDown").2.1
      rfl rfl ⟨.jpeg 800 600 "RGB", rfl⟩).1
  · exact (C4_amended envVisionFail "/pics/a.jpg" "ServiceUnavailable" "GeminiDown").2.2
      rfl ⟨.jpeg 800 600 "RGB", rfl⟩

/-- C5, counterexample. The claim says the failure record contains exactly
the two keys `file` and `error`. `ImageProcessor.process_single_image`
(line 71) emits only `{error}`: for an unreadable input file the result is a
one-key record with no `file` key. -/
theorem C5_counterexample :
    ImageProcessor.process_single_image envOpenFail "/pics/a.jpg"
      = [("error", .str "FileNotFoundError")] ∧
    lookupKey (ImageProcessor.process_single_image envOpenFail "/pics/a.jpg")
      "file" = none := ⟨rfl, rfl⟩

/-- C5, amended. When the per-image pipeline is aborted by an uncaught
exception, `EnhancedImageTagger.process_image` returns exactly the two-key
record `{file, error}`, while `ImageProcessor.process_single_image` returns
the one-key record `{error}`; neither re-raises (both are total), and the
batch loop still yields exactly one result record per input file. -/
theorem C5_amended (env : Env) (path e : String) (files : List String) :
    (ImageProcessor.pipeline env path = .error e →
      ImageProcessor.process_single_image env path = [("error", .str e)] ∧
      lookupKey (ImageProcessor.process_single_image env path) "file" = none) ∧
    (EnhancedImageTagger.pipeline env path = .error e →
      EnhancedImageTagger.process_image env path
        = [("file", .str (pyBasename path)), ("error", .str e)]) ∧
    (mainBatch env files).length = files.length := by
  refine ⟨?_, ?_, ?_⟩
  · intro h
    have h2 : ImageProcessor.process_single_image env path = [("error", .str e)] := by
      simp [ImageProcessor.process_single_image, h]
    exact ⟨h2, by rw [h2]; rfl⟩
  · intro h
    simp [EnhancedImageTagger.process_image, h]
  · simp [mainBatch]

/-- C5, witness: the amended theorem applied to `envOpenFail` (unreadable
input file) and a two-file batch. -/
theorem C5_amended_witness :
    ImageProcessor.process_single_image envOpenFail "/pics/a.jpg"
      = [("error", .str "FileNotFoundError")] ∧
    EnhancedImageTagger.process_image envOpenFail "/pics/a.jpg"
      = [("file", .str "a.jpg"), ("error", .str "FileNotFoundError")] ∧
    (mainBatch envOpenFail ["/pics/a.jpg", "/pics/b.jpg"]).length = 2 := by
  refine ⟨?_, ?_, ?_⟩
  · exact ((C5_amended envOpenFail "/pics/a.jpg" "FileNotFoundError" []).1 rfl).1
  · exact (C5_amended envOpenFail "/pics/a.jpg" "FileNotFoundError" []).2.1 rfl
  · exact (C5_amended envOpenFail "/pics/a.jpg" "FileNotFoundError"
      ["/pics/a.jpg", "/pics/b.jpg"]).2.2

theorem thumbnailDims_le (w h m : Nat) (hm : 1 ≤ m) :
    (thumbnailDims w h m).1 ≤ m ∧ (thumbnailDims w h m).2 ≤ m := by
  unfold thumbnailDims
  split_ifs with h1 h2
  · exact h1
  · refine ⟨?_, le_refl m⟩
    have hb : m * w / h ≤ m := by
      rcases Nat.eq_zero_or_pos h with h0 | hpos
      · simp [h0]
      · calc m * w / h ≤ m * h / h := Nat.div_le_div_right (Nat.mul_le_mul_left m h2)
          _ = m := Nat.mul_div_cancel m hpos
    exact max_le hm hb
  · refine ⟨le_refl m, ?_⟩
    have hhw : h ≤ w := Nat.le_of_lt (Nat.lt_of_not_le h2)
    have hb : m * h / w ≤ m := by
      rcases Nat.eq_zero_or_pos w with h0 | hpos
      · simp [h0]
      · calc m * h / w ≤ m * w / w := Nat.div_le_div_right (Nat.mul_le_mul_left m hhw)
          _ = m := Nat.mul_div_cancel m hpos
    exact max_le hm hb

/-- C6: for a `.png` path the legacy IPTC write is not attempted and the
returned flag equals the XMP outcome alone; in general the flag is true
exactly when every attempted format write succeeded (the XMP write is
always attempted, and an IPTC failure does not prevent it). -/
theorem C6_png_skips_iptc (path : String) (iptcOk xmpOk : Bool)
    (hpng : pyEndsWith (pyToLower path) ".png" = true) :
    ImageProcessor.iptc_applicable path = false ∧
    ImageProcessor.write_metadata path iptcOk xmpOk = xmpOk ∧
    ∀ (p : String) (i x : Bool),
      ImageProcessor.write_metadata p i x
        = ((!ImageProcessor.iptc_applicable p || i) && x) := by
  have hsuf : ".png".toList <:+ (pyToLower path).toList := by
    simpa [pyEndsWith] using hpng
  have h1 : pyEndsWith (pyToLower path) ".jpg" = false := by
    rw [pyEndsWith, decide_eq_false_iff_not]
    intro hs2
    have hss := List.suffix_of_suffix_length_le hsuf hs2 (by decide)
    exact absurd hss (by decide)
  have h2 : pyEndsWith (pyToLower path) ".jpeg" = false := by
    rw [pyEndsWith, decide_eq_false_iff_not]
    intro hs2
    have hss := List.suffix_of_suffix_length_le hsuf hs2 (by decide)
    exact absurd hss (by decide)
  have hna : ImageProcessor.iptc_applicable path = false := by
    simp [ImageProcessor.iptc_applicable, h1, h2]
  refine ⟨hna, ?_, ?_⟩
  · cases xmpOk <;> simp [ImageProcessor.write_metadata, hna]
  · intro p i x
    by_cases h : ImageProcessor.iptc_applicable p <;>
      cases i <;> cases x <;> simp [ImageProcessor.write_metadata, h]

/-- C6, witness: a PNG path with a failed IPTC outcome parameter and a
successful XMP write still reports overall success, because the IPTC write
is never attempted. -/
theorem C6_png_skips_iptc_witness :
    ImageProcessor.iptc_applicable "/pics/img.PNG" = false ∧
    ImageProcessor.write_metadata "/pics/img.PNG" false true = true := by
  have h := C6_png_skips_iptc "/pics/img.PNG" false true rfl
  exact ⟨h.1, h.2.1⟩

/-- The Filename Deriver base exactly as the claim words it: strip the
title, replace every character that is not alphanumeric, space, hyphen,
underscore, or period by an underscore, truncate to 50 characters, and
strip again. -/
def claimSanitize (title : String) : String :=
  pyStrip (String.mk (((pyStrip title).toList.map
    (fun c => if ¬ (pyIsAlnum c ∨ c = ' ' ∨ c = '-' ∨ c = '_' ∨ c = '.') then '_' else c)).take 50))

/-- C7, counterexample. The claim (and spec §8) says the title
`"Sunset  Over/Lake!!"` sanitizes to `"Sunset_Over_Lake__"`; the source
keeps spaces (they are in the allowed class), so the base is
`"Sunset  Over_Lake__"`. -/
theorem C7_counterexample :
    ImageProcessor.sanitize_title "Sunset  Over/Lake!!" = "Sunset  Over_Lake__" ∧
    "Sunset  Over_Lake__" ≠ "Sunset_Over_Lake__" := ⟨rfl, by decide⟩

/-- C7, amended. The general sanitisation rule of the claim holds verbatim
(strip, character-class mapping with spaces kept, truncate to 50, strip
again), the appended extension is the original one lowercased, and the
example sanitizes to `"Sunset  Over_Lake__"` (spaces preserved), not
`"Sunset_Over_Lake__"`. -/
theorem C7_amended :
    (∀ t : String, ImageProcessor.sanitize_title t = claimSanitize t) ∧
    ImageProcessor.sanitize_title "Sunset  Over/Lake!!" = "Sunset  Over_Lake__" ∧
    ∀ (fs : List String) (orig t : String),
      pyJoinPath (pyDirname orig)
          (ImageProcessor.sanitize_title t ++ pyToLower (splitextExt orig)) ∉ fs →
      ImageProcessor.rename_file fs true orig (.str t)
        = pyJoinPath (pyDirname orig) (claimSanitize t ++ pyToLower (splitextExt orig)) := by
  have hfun : ImageProcessor.sanitizeChar =
      (fun c => if ¬ (pyIsAlnum c ∨ c = ' ' ∨ c = '-' ∨ c = '_' ∨ c = '.') then '_' else c) := by
    funext c
    by_cases h : (pyIsAlnum c ∨ c = ' ' ∨ c = '-' ∨ c = '_' ∨ c = '.') <;>
      simp [ImageProcessor.sanitizeChar, h]
  have hsan : ∀ t : String, ImageProcessor.sanitize_title t = claimSanitize t := by
    intro t
    simp [ImageProcessor.sanitize_title, claimSanitize, hfun]
  refine ⟨hsan, rfl, ?_⟩
  intro fs orig t hfree
  rw [← hsan t]
  simp [ImageProcessor.rename_file, hfree]

/-- C7, witness: the amended theorem applied to the example title and a
collision-free directory; the rename target is the sanitized base plus the
lowercased original extension. -/
theorem C7_amended_witness :
    ImageProcessor.rename_file [] true "/pics/photo.JPG" (.str "Sunset  Over/Lake!!")
      = "/pics/Sunset  Over_Lake__.jpg" := by
  have h := C7_amended.2.2 [] "/pics/photo.JPG" "Sunset  Over/Lake!!" (by simp)
  exact h

/-- C8, counterexample. The claim says that on any failure, including an
unreadable file, the Normalizer returns the original raw bytes and never
raises. For an unreadable file the `except` branch re-opens the file, that
read raises too, and the exception escapes `resize_image`. -/
theorem C8_counterexample :
    ImageProcessor.resize_image (.error "cannot identify image file") (.ok ())
      (.error "PermissionError") 1024 = .error "PermissionError" := rfl

/-- C8, amended. Either the decode and re-encode succeed and the result is a
re-encoded image with both dimensions at most the configured maximum, or the
fallback read returns exactly the original raw bytes, or — only when the
original file cannot be read at all — the read's exception propagates. -/
theorem C8_amended (openR : Except String (Nat × Nat × String))
    (saveR : Except String Unit) (readR : Except String (List Nat))
    (m : Nat) (hm : 1 ≤ m) :
    (∃ w2 h2 md, ImageProcessor.resize_image openR saveR readR m
        = .ok (.jpeg w2 h2 md) ∧ w2 ≤ m ∧ h2 ≤ m) ∨
    (∃ bs, ImageProcessor.resize_image openR saveR readR m
        = .ok (.raw bs) ∧ readR = .ok bs) ∨
    (∃ e, ImageProcessor.resize_image openR saveR readR m
        = .error e ∧ readR = .error e) := by
  rcases openR with e | ⟨w, h, mode⟩
  · rcases readR with e2 | bs
    · exact Or.inr (Or.inr ⟨e2, rfl, rfl⟩)
    · exact Or.inr (Or.inl ⟨bs, rfl, rfl⟩)
  · rcases saveR with e | u
    · rcases readR with e2 | bs
      · exact Or.inr (Or.inr ⟨e2, rfl, rfl⟩)
      · exact Or.inr (Or.inl ⟨bs, rfl, rfl⟩)
    · exact Or.inl ⟨(thumbnailDims w h m).1, (thumbnailDims w h m).2,
        (if mode = "P" ∨ mode = "RGBA" then "RGB" else mode), rfl,
        (thumbnailDims_le w h m hm).1, (thumbnailDims_le w h m hm).2⟩

/-- C8, witness: the amended theorem applied to a successful 2048×1024
decode with the default maximum of 1024. -/
theorem C8_amended_witness :
    (∃ w2 h2 md, ImageProcessor.resize_image (.ok (2048, 1024, "RGB")) (.ok ())
        (.ok []) 1024 = .ok (.jpeg w2 h2 md) ∧ w2 ≤ 1024 ∧ h2 ≤ 1024) ∨
    (∃ bs, ImageProcessor.resize_image (.ok (2048, 1024, "RGB")) (.ok ())
        (.ok []) 1024 = .ok (.raw bs) ∧ (.ok [] : Except String (List Nat)) = .ok bs) ∨
    (∃ e, ImageProcessor.resize_image (.ok (2048, 1024, "RGB")) (.ok ())
        (.ok []) 1024 = .error e ∧ (.ok [] : Except String (List Nat)) = .error e) := by
  have h := C8_amended (.ok (2048, 1024, "RGB")) (.ok ()) (.ok []) 1024 (by decide)
  exact h

theorem mem_pyStripL {c : Char} {l : List Char} (h : c ∈ pyStripL l) : c ∈ l := by
  unfold pyStripL at h
  rw [List.mem_reverse] at h
  have h2 := (List.dropWhile_sublist Char.isWhitespace).subset h
  rw [List.mem_reverse] at h2
  exact (List.dropWhile_sublist Char.isWhitespace).subset h2

theorem sanitizeChar_ne_slash (c : Char) : ImageProcessor.sanitizeChar c ≠ '/' := by
  unfold ImageProcessor.sanitizeChar
  split_ifs with h
  · intro he
    subst he
    exact absurd h (by decide)
  · decide

theorem sanitize_no_slash (t : String) :
    ∀ c ∈ (ImageProcessor.sanitize_title t).toList, c ≠ '/' := by
  intro c hc
  have hc1 : c ∈ pyStripL (((pyStrip t).toList.map ImageProcessor.sanitizeChar).take 50) := by
    simpa [ImageProcessor.sanitize_title, pyStrip] using hc
  have hc2 := mem_pyStripL hc1
  have hc3 := List.mem_of_mem_take hc2
  obtain ⟨c0, _, hc0⟩ := List.mem_map.mp hc3
  rw [← hc0]
  exact sanitizeChar_ne_slash c0

theorem string_append_left_cancel {s a b : String} (h : s ++ a = s ++ b) : a = b := by
  have h2 : s.data ++ a.data = s.data ++ b.data := by
    rw [← String.data_append, ← String.data_append, h]
  exact String.ext (List.append_cancel_left h2)

theorem headIsSlash_append (a b : String) (ha : ∀ c ∈ a.toList, c ≠ '/')
    (hb : headIsSlash b = false) : headIsSlash (a ++ b) = false := by
  unfold headIsSlash at hb ⊢
  simp only [String.toList] at ha ⊢
  rw [String.data_append]
  rcases hal : a.data with _ | ⟨c, cs⟩
  · simpa [String.toList, hal] using hb
  · have hc : c ≠ '/' := ha c (by rw [hal]; exact List.mem_cons_self c cs)
    simp [hc]

theorem pyJoinPath_inj_right {d x y : String} (hx : headIsSlash x = false)
    (hy : headIsSlash y = false) (h : pyJoinPath d x = pyJoinPath d y) : x = y := by
  unfold pyJoinPath at h
  rw [hx, hy] at h
  simp only [Bool.false_eq_true, if_false] at h
  by_cases hd : d = "" ∨ lastIsSlash d
  · rw [if_pos hd, if_pos hd] at h
    exact string_append_left_cancel h
  · rw [if_neg hd, if_neg hd] at h
    exact string_append_left_cancel h

theorem collisionLoop_form (fs : List String) (dir base ext : String) :
    ∀ (fuel counter : Nat), ∃ n, counter ≤ n ∧
      ImageProcessor.collisionLoop fs dir base ext fuel counter
        = pyJoinPath dir (base ++ "_" ++ Nat.repr n ++ ext) := by
  intro fuel
  induction fuel with
  | zero => exact fun counter => ⟨counter, Nat.le_refl _, rfl⟩
  | succ fuel ih =>
    intro counter
    by_cases hmem : pyJoinPath dir (base ++ "_" ++ Nat.repr counter ++ ext) ∈ fs
    · obtain ⟨n, hn1, hn2⟩ := ih (counter + 1)
      exact ⟨n, Nat.le_of_succ_le hn1, by
        simpa [ImageProcessor.collisionLoop, hmem] using hn2⟩
    · exact ⟨counter, Nat.le_refl _, by simp [ImageProcessor.collisionLoop, hmem]⟩

theorem collisionLoop_free (fs : List String) (dir base ext : String) :
    ∀ (fuel counter : Nat),
      (∃ k, counter ≤ k ∧ k < counter + fuel ∧
        pyJoinPath dir (base ++ "_" ++ Nat.repr k ++ ext) ∉ fs) →
      ImageProcessor.collisionLoop fs dir base ext fuel counter ∉ fs := by
  intro fuel
  induction fuel with
  | zero =>
    rintro counter ⟨k, hk1, hk2, _⟩
    omega
  | succ fuel ih =>
    rintro counter ⟨k, hk1, hk2, hk3⟩
    by_cases hmem : pyJoinPath dir (base ++ "_" ++ Nat.repr counter ++ ext) ∈ fs
    · have hkc : counter ≠ k := by
        intro he
        exact hk3 (he ▸ hmem)
      have hres : ImageProcessor.collisionLoop fs dir base ext (fuel + 1) counter
          = ImageProcessor.collisionLoop fs dir base ext fuel (counter + 1) := by
        simp [ImageProcessor.collisionLoop, hmem]
      rw [hres]
      exact ih (counter + 1) ⟨k, by omega, by omega, hk3⟩
    · simp [ImageProcessor.collisionLoop, hmem]


theorem splitextExtCore_cases (rev : List Char) :
    splitextExtCore rev = [] ∨ ∃ rest, splitextExtCore rev = '.' :: rest := by
  unfold splitextExtCore
  split
  · exact Or.inl rfl
  · split
    · exact Or.inr ⟨_, rfl⟩
    · exact Or.inl rfl

theorem headIsSlash_extLower (p : String) :
    headIsSlash (pyToLower (splitextExt p)) = false := by
  rcases splitextExtCore_cases ((pyBasenameL p.toList).reverse) with h | ⟨rest, h⟩ <;>
    simp only [String.toList] at h <;>
    simp [headIsSlash, pyToLower, splitextExt, splitextExtL, h, String.toList]

/-- C10: when the sanitized base plus lowercased extension is the file's own
current name, the existence check sees the file itself, so the rename always
lands on a counter-suffixed name `base_n.ext` with `n ≥ 1` and never on
`base.ext` (the original name), even though that name would be free after
the rename. -/
theorem C10_self_collision (fs : List String) (orig t : String)
    (hex : orig ∈ fs)
    (hself : pyJoinPath (pyDirname orig)
        (ImageProcessor.sanitize_title t ++ pyToLower (splitextExt orig)) = orig) :
    (∃ n, 1 ≤ n ∧ ImageProcessor.rename_file fs true orig (.str t)
        = pyJoinPath (pyDirname orig)
            (ImageProcessor.sanitize_title t ++ "_" ++ Nat.repr n
              ++ pyToLower (splitextExt orig))) ∧
    ImageProcessor.rename_file fs true orig (.str t) ≠ orig := by
  have hmem : pyJoinPath (pyDirname orig)
      (ImageProcessor.sanitize_title t ++ pyToLower (splitextExt orig)) ∈ fs := by
    rw [hself]; exact hex
  have hren : ImageProcessor.rename_file fs true orig (.str t)
      = ImageProcessor.collisionLoop fs (pyDirname orig)
          (ImageProcessor.sanitize_title t) (pyToLower (splitextExt orig))
          (fs.length + 1) 1 := by
    simp [ImageProcessor.rename_file, hmem]
  obtain ⟨n, hn1, hn2⟩ := collisionLoop_form fs (pyDirname orig)
    (ImageProcessor.sanitize_title t) (pyToLower (splitextExt orig)) (fs.length + 1) 1
  refine ⟨⟨n, hn1, hren.trans hn2⟩, ?_⟩
  rw [hren, hn2]
  intro he
  have he2 := he.trans hself.symm
  have hassoc : ImageProcessor.sanitize_title t ++ "_" ++ Nat.repr n
      ++ pyToLower (splitextExt orig)
      = ImageProcessor.sanitize_title t
          ++ ("_" ++ (Nat.repr n ++ pyToLower (splitextExt orig))) := by
    rw [String.append_assoc, String.append_assoc]
  rw [hassoc] at he2
  have hx : headIsSlash (ImageProcessor.sanitize_title t
      ++ ("_" ++ (Nat.repr n ++ pyToLower (splitextExt orig)))) = false :=
    headIsSlash_append _ _ (sanitize_no_slash t) rfl
  have hy : headIsSlash (ImageProcessor.sanitize_title t
      ++ pyToLower (splitextExt orig)) = false :=
    headIsSlash_append _ _ (sanitize_no_slash t) (headIsSlash_extLower orig)
  have hcancel := string_append_left_cancel (pyJoinPath_inj_right hx hy he2)
  have hl := congrArg String.length hcancel
  rw [String.length_append, String.length_append] at hl
  have h1 : ("_" : String).length = 1 := rfl
  rw [h1] at hl
  omega

/-- C10, witness: a file `/pics/Sunset.jpg` whose generated title is already
`Sunset`; the deriver renames it to a counter-suffixed name rather than
keeping `Sunset.jpg`. -/
theorem C10_self_collision_witness :
    (∃ n, 1 ≤ n ∧
      ImageProcessor.rename_file ["/pics/Sunset.jpg"] true "/pics/Sunset.jpg"
          (.str "Sunset")
        = pyJoinPath (pyDirname "/pics/Sunset.jpg")
            (ImageProcessor.sanitize_title "Sunset" ++ "_" ++ Nat.repr n
              ++ pyToLower (splitextExt "/pics/Sunset.jpg"))) ∧
    ImageProcessor.rename_file ["/pics/Sunset.jpg"] true "/pics/Sunset.jpg"
        (.str "Sunset") ≠ "/pics/Sunset.jpg" :=
  C10_self_collision ["/pics/Sunset.jpg"] "/pics/Sunset.jpg" "Sunset"
    (by decide) rfl

/-- C9: a title that strips to nothing sanitizes to the empty base, and the
rename still happens: the new basename is just the lowercased extension (a
hidden dotfile) when that name is free, or `_n.ext` with `n ≥ 1` otherwise;
given some free candidate within the fuel bound the result is a path that
did not exist before, so the original name is not kept. -/
theorem C9_whitespace_title (fs : List String) (orig t : String)
    (ht : pyStrip t = "") (hex : orig ∈ fs)
    (hfree : ∃ k, 1 ≤ k ∧ k ≤ fs.length + 1 ∧
      pyJoinPath (pyDirname orig)
        ("_" ++ Nat.repr k ++ pyToLower (splitextExt orig)) ∉ fs) :
    ImageProcessor.sanitize_title t = "" ∧
    (pyJoinPath (pyDirname orig) (pyToLower (splitextExt orig)) ∉ fs →
      ImageProcessor.rename_file fs true orig (.str t)
        = pyJoinPath (pyDirname orig) (pyToLower (splitextExt orig))) ∧
    (ImageProcessor.rename_file fs true orig (.str t)
        = pyJoinPath (pyDirname orig) (pyToLower (splitextExt orig)) ∨
      ∃ n, 1 ≤ n ∧ ImageProcessor.rename_file fs true orig (.str t)
        = pyJoinPath (pyDirname orig)
            ("_" ++ Nat.repr n ++ pyToLower (splitextExt orig))) ∧
    ImageProcessor.rename_file fs true orig (.str t) ∉ fs ∧
    ImageProcessor.rename_file fs true orig (.str t) ≠ orig := by
  have hs : ImageProcessor.sanitize_title t = "" := by
    rw [ImageProcessor.sanitize_title, ht]
    rfl
  by_cases hmem : pyJoinPath (pyDirname orig) (pyToLower (splitextExt orig)) ∈ fs
  · have hren : ImageProcessor.rename_file fs true orig (.str t)
        = ImageProcessor.collisionLoop fs (pyDirname orig) ""
            (pyToLower (splitextExt orig)) (fs.length + 1) 1 := by
      simp [ImageProcessor.rename_file, hs, hmem]
    obtain ⟨n, hn1, hn2⟩ := collisionLoop_form fs (pyDirname orig) ""
      (pyToLower (splitextExt orig)) (fs.length + 1) 1
    have hnotin : ImageProcessor.rename_file fs true orig (.str t) ∉ fs := by
      rw [hren]
      apply collisionLoop_free fs (pyDirname orig) "" (pyToLower (splitextExt orig))
        (fs.length + 1) 1
      obtain ⟨k, hk1, hk2, hk3⟩ := hfree
      exact ⟨k, hk1, by omega, hk3⟩
    refine ⟨hs, ?_, ?_, hnotin, ?_⟩
    · intro hc
      exact absurd hmem hc
    · exact Or.inr ⟨n, hn1, hren.trans hn2⟩
    · intro he
      exact hnotin (by rw [he]; exact hex)
  · have hren : ImageProcessor.rename_file fs true orig (.str t)
        = pyJoinPath (pyDirname orig) (pyToLower (splitextExt orig)) := by
      simp [ImageProcessor.rename_file, hs, hmem]
    refine ⟨hs, fun _ => hren, Or.inl hren, ?_, ?_⟩
    · rw [hren]
      exact hmem
    · intro he
      apply hmem
      rw [← hren, he]
      exact hex

/-- C9, witness: an all-whitespace title on `/pics/photo.JPG` renames the
file to the hidden dotfile `/pics/.jpg`. -/
theorem C9_whitespace_title_witness :
    ImageProcessor.sanitize_title "   " = "" ∧
    ImageProcessor.rename_file ["/pics/photo.JPG"] true "/pics/photo.JPG"
        (.str "   ") = "/pics/.jpg" ∧
    ImageProcessor.rename_file ["/pics/photo.JPG"] true "/pics/photo.JPG"
        (.str "   ") ≠ "/pics/photo.JPG" := by
  have h := C9_whitespace_title ["/pics/photo.JPG"] "/pics/photo.JPG" "   "
    rfl (by decide) ⟨1, by omega, by omega, by decide⟩
  exact ⟨h.1, h.2.1 (by decide), h.2.2.2.2⟩
